import Mathlib

/-!
Verification of the ProfitLift analytics core against its specification.

The Python sources are shallowly embedded: DataFrames become lists of records,
floats become rationals (`ℚ`), `frozenset`s of item ids become `Finset String`,
and fallible / early-return code paths become `Option` / `Except` values.
Each definition carries the name of the Python symbol it embeds.
-/

/-- Embeds `Context` (src/app/mining/context_types.py, `@dataclass(frozen=True)`):
five optional dimensions; `None` becomes `none`.  Python's frozen dataclass
equality compares all five fields, which coincides with structural equality. -/
structure Context where
  store_id : Option String := none
  time_bin : Option String := none
  weekday_weekend : Option String := none
  quarter : Option Int := none
  festival_period : Option String := none
deriving DecidableEq

/-- ASCII model of Python `str.title()`: a letter is uppercased when the previous
character is not a letter, lowercased otherwise (used only inside
`Context.render`). -/
def pyTitle (s : String) : String :=
  String.mk ((s.data.foldl
    (fun (acc : List Char × Bool) ch =>
      (acc.1 ++ [if acc.2 then ch.toLower else ch.toUpper], ch.isAlpha))
    ([], false)).1)

/-- Python truthiness of an optional string: `None` and `""` are falsy. -/
def optTruthy : Option String → Bool
  | none => false
  | some s => s ≠ ""

/-- Truthiness of the optional quarter (an `int`: `0` is falsy). -/
def optIntTruthy : Option Int → Bool
  | none => false
  | some q => q ≠ 0

/-- Embeds `Context.__str__`: display priority store → festival → time-bin →
weekday/weekend → quarter, the quarter suppressed when a festival is shown;
the empty context renders as `"Overall"`. -/
def Context.render (c : Context) : String :=
  let parts : List String :=
    (if optTruthy c.store_id then ["Store " ++ c.store_id.getD ""] else []) ++
    (if optTruthy c.festival_period then [pyTitle (c.festival_period.getD "")] else []) ++
    (if optTruthy c.time_bin then [pyTitle (c.time_bin.getD "")] else []) ++
    (if optTruthy c.weekday_weekend then [pyTitle (c.weekday_weekend.getD "")] else []) ++
    (if optIntTruthy c.quarter ∧ ¬ optTruthy c.festival_period then
      ["Q" ++ toString (c.quarter.getD 0)] else [])
  if parts = [] then "Overall" else String.intercalate " + " parts

/-- The all-unset `Context()` ("Overall"). -/
def Context.overall : Context := ⟨none, none, none, none, none⟩

/-- Embeds `ContextualRule` (src/app/mining/context_types.py, a plain
`@dataclass`): antecedent/consequent item sets, the three mined statistics,
the mining context, and the three optional score fields that scoring
populates later. -/
structure CRule where
  antecedent : Finset String
  consequent : Finset String
  support : ℚ
  confidence : ℚ
  lift : ℚ
  context : Context
  profit_score : Option ℚ := none
  diversity_score : Option ℚ := none
  overall_score : Option ℚ := none
deriving DecidableEq

/-- The equality Python generates for `ContextualRule`: `@dataclass` defaults to
`eq=True`, whose `__eq__` compares the tuple of ALL declared fields — the nine
fields above, score fields included.  (With `eq=True` and `frozen=False` the
dataclass machinery also sets `__hash__ = None`, so the class is unhashable.) -/
def ContextualRule.eqPy (a b : CRule) : Bool :=
  decide (a.antecedent = b.antecedent) && decide (a.consequent = b.consequent) &&
  decide (a.support = b.support) && decide (a.confidence = b.confidence) &&
  decide (a.lift = b.lift) && decide (a.context = b.context) &&
  decide (a.profit_score = b.profit_score) &&
  decide (a.diversity_score = b.diversity_score) &&
  decide (a.overall_score = b.overall_score)

/-- C8 counterexample: two rules with identical (antecedent, consequent, context)
triples but different `support` compare UNEQUAL under the dataclass-generated
equality, so equality is not by the triple. -/
theorem contextualRule_eq_not_by_triple :
    ContextualRule.eqPy
      ⟨{"a"}, {"b"}, 2, 1, 1, Context.overall, none, none, none⟩
      ⟨{"a"}, {"b"}, 1, 1, 1, Context.overall, none, none, none⟩ = false ∧
    ({"a"} : Finset String) = {"a"} ∧ ({"b"} : Finset String) = {"b"} ∧
    Context.overall = Context.overall := by
  decide

/-- C8 (amended): the dataclass-generated equality of `ContextualRule` holds
exactly when ALL nine fields agree — support, confidence, lift and the three
score fields are compared too, not only the (antecedent, consequent, context)
triple; and the class is unhashable, so it cannot be deduplicated via sets. -/
theorem contextualRule_eq_iff_all_fields (a b : CRule) :
    ContextualRule.eqPy a b = true ↔ a = b := by
  cases a
  cases b
  simp only [ContextualRule.eqPy, Bool.and_eq_true, decide_eq_true_eq, CRule.mk.injEq]
  tauto

/-! ## Itemset mining (src/app/mining/eclat.py, src/app/mining/fpgrowth.py)

Transactions are lists of item-id lists, exactly the `List[List[str]]` the two
miners receive.  Supports are exact rationals (# transactions containing the
itemset / total transactions). -/

/-- Embeds `EclatMiner._to_vertical_format` for one item: the tid-list
`{tid | item ∈ transactions[tid]}`. -/
def tidSet (ts : List (List String)) (a : String) : Finset ℕ :=
  (Finset.range ts.length).filter fun i => a ∈ ts.getD i []

/-- Number of transactions containing every item of `S` (the support count of
the itemset `S`). -/
def supportCount (ts : List (List String)) (S : Finset String) : ℕ :=
  ((Finset.range ts.length).filter fun i => ∀ a ∈ S, a ∈ ts.getD i []).card

/-- All item ids occurring in some transaction (the keys of the vertical
database / the columns of the basket matrix). -/
def itemUniverse (ts : List (List String)) : Finset String :=
  (ts.foldr (· ++ ·) []).toFinset

/-- Embeds `min_support_count = int(min_support * total_transactions)` from
`EclatMiner.mine`: Python `int()` truncates, which on the non-negative values
in range is the floor. -/
def minSupportCount (ts : List (List String)) (ms : ℚ) : ℕ :=
  (⌊ms * (ts.length : ℚ)⌋).toNat

/-- The frequent single items of `EclatMiner.mine` (`frequent_items`): items
whose tid-list length reaches the count threshold. -/
def eclatSingles (ts : List (List String)) (ms : ℚ) : Finset String :=
  (itemUniverse ts).filter fun a => minSupportCount ts ms ≤ (tidSet ts a).card

/-- Embeds `EclatMiner.mine` (with `_eclat`), as the set of
(itemset, support) rows of the returned DataFrame.  `_eclat` adds each entry of
its argument whose tid-list reaches the threshold, then joins PAIRS of entries;
every recursive call receives a singleton dict, for which the candidate loop
(`len(current_itemsets) > 1`) is dead, so the recursion adds exactly the
frequent pairs of frequent single items and nothing larger.  Support is the
tid-list (intersection) length over the transaction count. -/
def EclatMiner.mine (ts : List (List String)) (ms : ℚ) : Finset (Finset String × ℚ) :=
  ((eclatSingles ts ms).image fun a =>
    ({a}, ((tidSet ts a).card : ℚ) / (ts.length : ℚ))) ∪
  (((eclatSingles ts ms ×ˢ eclatSingles ts ms).filter fun p =>
      p.1 ≠ p.2 ∧ minSupportCount ts ms ≤ (tidSet ts p.1 ∩ tidSet ts p.2).card).image
    fun p =>
      ({p.1, p.2}, ((tidSet ts p.1 ∩ tidSet ts p.2).card : ℚ) / (ts.length : ℚ)))

/-- Modelled from the spec: `FPGrowthMiner.mine` delegates to the external
`mlxtend.frequent_patterns.fpgrowth`, whose code is not in the repository.
Per spec §4.2 the prefix-tree strategy returns every (non-empty) itemset of
observed items meeting the support floor, with
support = (# transactions containing it) / (total transactions). -/
def FPGrowthMiner.mine (ts : List (List String)) (ms : ℚ) : Finset (Finset String × ℚ) :=
  (((itemUniverse ts).powerset.filter fun S =>
      S.Nonempty ∧ ms * (ts.length : ℚ) ≤ (supportCount ts S : ℚ)).image
    fun S => (S, (supportCount ts S : ℚ) / (ts.length : ℚ)))

/-- A mined association rule row (`antecedents`, `consequents`, `support`,
`confidence`, `lift`), as produced by `generate_rules`. -/
structure MinedRule where
  antecedents : Finset String
  consequents : Finset String
  support : ℚ
  confidence : ℚ
  lift : ℚ
deriving DecidableEq

/-- Fractional support of an itemset. -/
def fpSupport (ts : List (List String)) (S : Finset String) : ℚ :=
  (supportCount ts S : ℚ) / (ts.length : ℚ)

/-- Modelled from the spec: `FPGrowthMiner.generate_rules` delegates to the
external `mlxtend.frequent_patterns.association_rules`, whose code is not in
the repository.  Per spec §4.3: every frequent itemset of size ≥ 2 is split
into all non-empty disjoint antecedent/consequent pairs;
confidence = support(itemset)/support(antecedent),
lift = confidence/support(consequent); rules with confidence ≥ min_confidence
are kept. -/
def FPGrowthMiner.generate_rules (ts : List (List String)) (ms mc : ℚ) :
    Finset MinedRule :=
  ((((itemUniverse ts).powerset ×ˢ (itemUniverse ts).powerset).filter fun p =>
      p.1.Nonempty ∧ p.2.Nonempty ∧ Disjoint p.1 p.2 ∧
      ms * (ts.length : ℚ) ≤ (supportCount ts (p.1 ∪ p.2) : ℚ) ∧
      mc ≤ fpSupport ts (p.1 ∪ p.2) / fpSupport ts p.1).image
    fun p =>
      ⟨p.1, p.2, fpSupport ts (p.1 ∪ p.2),
       fpSupport ts (p.1 ∪ p.2) / fpSupport ts p.1,
       fpSupport ts (p.1 ∪ p.2) / fpSupport ts p.1 / fpSupport ts p.2⟩)

example : supportCount [["a", "b"], ["a"]] {"a"} = 2 := by decide
example : supportCount [["a", "b"], ["a"]] {"a", "b"} = 1 := by decide
example : minSupportCount [["a"], ["b"], ["c"]] (1/2) = 1 := by
  simp [minSupportCount]
  norm_num

lemma mem_foldr_append {α : Type} (a : α) (ts : List (List α)) :
    a ∈ ts.foldr (· ++ ·) [] ↔ ∃ t ∈ ts, a ∈ t := by
  induction ts with
  | nil => simp
  | cons t ts ih => simp [ih]

lemma mem_itemUniverse {ts : List (List String)} {a : String} :
    a ∈ itemUniverse ts ↔ ∃ t ∈ ts, a ∈ t := by
  rw [itemUniverse, List.mem_toFinset, mem_foldr_append]

lemma supportCount_singleton (ts : List (List String)) (a : String) :
    supportCount ts {a} = (tidSet ts a).card := by
  unfold supportCount tidSet
  congr 1
  apply Finset.filter_congr
  intro i _
  simp

lemma supportCount_pair (ts : List (List String)) (a b : String) :
    supportCount ts {a, b} = (tidSet ts a ∩ tidSet ts b).card := by
  unfold supportCount tidSet
  rw [← Finset.filter_and]
  congr 1
  apply Finset.filter_congr
  intro i _
  simp

lemma minSupportCount_le_iff (ts : List (List String)) (ms : ℚ)
    (hpos : 0 ≤ ms) (hint : (ms * (ts.length : ℚ)).den = 1) (c : ℕ) :
    minSupportCount ts ms ≤ c ↔ ms * (ts.length : ℚ) ≤ (c : ℚ) := by
  have h0 : (0 : ℚ) ≤ ms * (ts.length : ℚ) := mul_nonneg hpos (by positivity)
  have hq : (((ms * (ts.length : ℚ)).num : ℤ) : ℚ) = ms * (ts.length : ℚ) :=
    Rat.coe_int_num_of_den_eq_one hint
  have hfl : ⌊ms * ((ts.length : ℕ) : ℚ)⌋ = (ms * (ts.length : ℚ)).num := by
    rw [← hq]; exact Int.floor_intCast _
  unfold minSupportCount
  rw [hfl, Int.toNat_le, ← @Int.cast_le ℚ, hq]
  push_cast
  rfl

lemma mem_eclat_iff (ts : List (List String)) (ms : ℚ) (S : Finset String) (q : ℚ) :
    (S, q) ∈ EclatMiner.mine ts ms ↔
      ((∃ a, a ∈ eclatSingles ts ms ∧ S = {a} ∧
          q = ((tidSet ts a).card : ℚ) / (ts.length : ℚ)) ∨
       (∃ a b, a ∈ eclatSingles ts ms ∧ b ∈ eclatSingles ts ms ∧ a ≠ b ∧
          minSupportCount ts ms ≤ (tidSet ts a ∩ tidSet ts b).card ∧ S = {a, b} ∧
          q = ((tidSet ts a ∩ tidSet ts b).card : ℚ) / (ts.length : ℚ))) := by
  unfold EclatMiner.mine
  simp only [Finset.mem_union, Finset.mem_image, Finset.mem_filter, Finset.mem_product,
    Prod.mk.injEq, Prod.exists]
  constructor
  · rintro (⟨a, ha, h1, h2⟩ | ⟨a, b, ⟨⟨ha, hb⟩, hne, hcnt⟩, h1, h2⟩)
    · exact Or.inl ⟨a, ha, h1.symm, h2.symm⟩
    · exact Or.inr ⟨a, b, ha, hb, hne, hcnt, h1.symm, h2.symm⟩
  · rintro (⟨a, ha, h1, h2⟩ | ⟨a, b, ha, hb, hne, hcnt, h1, h2⟩)
    · exact Or.inl ⟨a, ha, h1.symm, h2.symm⟩
    · exact Or.inr ⟨a, b, ⟨⟨ha, hb⟩, hne, hcnt⟩, h1.symm, h2.symm⟩

lemma eclat_itemsets_card_le_two {ts : List (List String)} {ms : ℚ}
    {S : Finset String} {q : ℚ} (h : (S, q) ∈ EclatMiner.mine ts ms) : S.card ≤ 2 := by
  rcases (mem_eclat_iff ts ms S q).mp h with ⟨a, _, rfl, _⟩ | ⟨a, b, _, _, _, _, rfl, _⟩
  · simp
  · exact (Finset.card_insert_le _ _).trans (by simp)

/-- C1 counterexample: on the single transaction `["a","b","c"]` with
`min_support = 1`, the FP-growth miner returns the triple `{a,b,c}` (support 1)
but the Eclat miner never returns it with any support — its recursion cannot
build itemsets of size 3. -/
theorem eclat_fp_disagree :
    (({"a", "b", "c"} : Finset String), (1 : ℚ)) ∈ FPGrowthMiner.mine [["a", "b", "c"]] 1 ∧
    ({"a", "b", "c"} : Finset String) ∉
      (EclatMiner.mine [["a", "b", "c"]] 1).image Prod.fst := by
  constructor
  · have hsc : supportCount [["a", "b", "c"]] {"a", "b", "c"} = 1 := by decide
    refine Finset.mem_image.mpr ⟨{"a", "b", "c"}, Finset.mem_filter.mpr ⟨?_, ?_, ?_⟩, ?_⟩
    · decide
    · decide
    · rw [hsc]; norm_num
    · rw [hsc]; norm_num
  · intro h
    obtain ⟨p, hp, hfst⟩ := Finset.mem_image.mp h
    have hcard := eclat_itemsets_card_le_two hp
    rw [hfst] at hcard
    have : ({"a", "b", "c"} : Finset String).card = 3 := by decide
    omega

/-- C1 (amended): restricted to itemsets of size ≤ 2, and to thresholds where
Eclat's truncated count `int(min_support·N)` agrees with the exact support
floor (`min_support > 0` with `min_support·N` an integer), the two miners
return exactly the same (itemset, support) rows.  Without the restrictions
they disagree: Eclat never emits itemsets of size ≥ 3, and for fractional
`min_support·N` its `int()` threshold is one lower than FP-growth's. -/
theorem eclat_fp_agree_upto_pairs (ts : List (List String)) (ms : ℚ)
    (hpos : 0 < ms) (hint : (ms * (ts.length : ℚ)).den = 1)
    (S : Finset String) (q : ℚ) (hS : S.card ≤ 2) :
    (S, q) ∈ EclatMiner.mine ts ms ↔ (S, q) ∈ FPGrowthMiner.mine ts ms := by
  have key : ∀ c : ℕ, minSupportCount ts ms ≤ c ↔ ms * (ts.length : ℚ) ≤ (c : ℚ) :=
    minSupportCount_le_iff ts ms hpos.le hint
  have hfp : (S, q) ∈ FPGrowthMiner.mine ts ms ↔
      (S ⊆ itemUniverse ts ∧ S.Nonempty ∧
        ms * (ts.length : ℚ) ≤ (supportCount ts S : ℚ) ∧
        q = (supportCount ts S : ℚ) / (ts.length : ℚ)) := by
    unfold FPGrowthMiner.mine
    simp only [Finset.mem_image, Finset.mem_filter, Finset.mem_powerset, Prod.mk.injEq]
    constructor
    · rintro ⟨T, ⟨hsub, hne, hle⟩, rfl, rfl⟩
      exact ⟨hsub, hne, hle, rfl⟩
    · rintro ⟨hsub, hne, hle, rfl⟩
      exact ⟨S, ⟨hsub, hne, hle⟩, rfl, rfl⟩
  rw [hfp, mem_eclat_iff]
  constructor
  · rintro (⟨a, ha, rfl, rfl⟩ | ⟨a, b, ha, hb, hne, hcnt, rfl, rfl⟩)
    · obtain ⟨hau, hacnt⟩ := Finset.mem_filter.mp ha
      refine ⟨Finset.singleton_subset_iff.mpr hau, Finset.singleton_nonempty a, ?_, ?_⟩
      · rw [supportCount_singleton]; exact (key _).mp hacnt
      · rw [supportCount_singleton]
    · obtain ⟨hau, _⟩ := Finset.mem_filter.mp ha
      obtain ⟨hbu, _⟩ := Finset.mem_filter.mp hb
      refine ⟨?_, ⟨a, Finset.mem_insert_self a {b}⟩, ?_, ?_⟩
      · exact Finset.insert_subset hau (Finset.singleton_subset_iff.mpr hbu)
      · rw [supportCount_pair]; exact (key _).mp hcnt
      · rw [supportCount_pair]
  · rintro ⟨hsub, hne, hle, rfl⟩
    have hc : S.card = 1 ∨ S.card = 2 := by
      have := Finset.Nonempty.card_pos hne
      omega
    rcases hc with hc | hc
    · obtain ⟨a, rfl⟩ := Finset.card_eq_one.mp hc
      have hau : a ∈ itemUniverse ts := hsub (Finset.mem_singleton_self a)
      have hacnt : minSupportCount ts ms ≤ (tidSet ts a).card := by
        rw [key, ← supportCount_singleton]; exact hle
      exact Or.inl ⟨a, Finset.mem_filter.mpr ⟨hau, hacnt⟩, rfl,
        by rw [supportCount_singleton]⟩
    · obtain ⟨a, b, hab, rfl⟩ := Finset.card_eq_two.mp hc
      have hau : a ∈ itemUniverse ts := hsub (Finset.mem_insert_self a {b})
      have hbu : b ∈ itemUniverse ts :=
        hsub (Finset.mem_insert_of_mem (Finset.mem_singleton_self b))
      have hcap : minSupportCount ts ms ≤ (tidSet ts a ∩ tidSet ts b).card := by
        rw [key, ← supportCount_pair]; exact hle
      have hacnt : minSupportCount ts ms ≤ (tidSet ts a).card :=
        hcap.trans (Finset.card_le_card Finset.inter_subset_left)
      have hbcnt : minSupportCount ts ms ≤ (tidSet ts b).card :=
        hcap.trans (Finset.card_le_card Finset.inter_subset_right)
      exact Or.inr ⟨a, b, Finset.mem_filter.mpr ⟨hau, hacnt⟩,
        Finset.mem_filter.mpr ⟨hbu, hbcnt⟩, hab, hcap, rfl,
        by rw [supportCount_pair]⟩

/-- Witness for the amended C1 theorem at a concrete input. -/
theorem eclat_fp_agree_upto_pairs_witness :
    (0 : ℚ) < 1 ∧
    ((1 : ℚ) * ((([["a", "b"], ["a", "b"]] : List (List String)).length : ℕ) : ℚ)).den = 1 ∧
    ({"a", "b"} : Finset String).card ≤ 2 ∧
    ((({"a", "b"} : Finset String), (1 : ℚ)) ∈ EclatMiner.mine [["a", "b"], ["a", "b"]] 1 ↔
      (({"a", "b"} : Finset String), (1 : ℚ)) ∈ FPGrowthMiner.mine [["a", "b"], ["a", "b"]] 1) :=
  ⟨by norm_num, by simp, by decide,
    eclat_fp_agree_upto_pairs [["a", "b"], ["a", "b"]] 1 (by norm_num) (by simp)
      {"a", "b"} 1 (by decide)⟩

lemma supportCount_eq_length (ts : List (List String)) (S : Finset String)
    (h : ∀ t ∈ ts, ∀ a ∈ S, a ∈ t) : supportCount ts S = ts.length := by
  unfold supportCount
  rw [Finset.filter_true_of_mem, Finset.card_range]
  intro i hi a ha
  have hlt : i < ts.length := Finset.mem_range.mp hi
  rw [List.getD_eq_getElem ts [] hlt]
  exact h _ (List.getElem_mem hlt) a ha

/-- C2: on a transaction set where X and Y co-occur in every one of the N
transactions and no other item appears, mining with min_support ≤ 1 followed
by rule generation with min_confidence ≤ 1 yields the rule {X} → {Y} with
support 1 and confidence 1. -/
theorem perfect_pair_rule (ts : List (List String)) (X Y : String) (ms mc : ℚ)
    (hts : ts ≠ []) (hXY : X ≠ Y)
    (hco : ∀ t ∈ ts, X ∈ t ∧ Y ∈ t)
    (honly : ∀ t ∈ ts, ∀ i ∈ t, i = X ∨ i = Y)
    (hms : ms ≤ 1) (hmc : mc ≤ 1) :
    ∃ r ∈ FPGrowthMiner.generate_rules ts ms mc,
      r.antecedents = {X} ∧ r.consequents = {Y} ∧ r.support = 1 ∧ r.confidence = 1 := by
  have hN : 0 < ts.length := List.length_pos.mpr hts
  have hNq : (0 : ℚ) < (ts.length : ℚ) := by exact_mod_cast hN
  have hU : ({X} : Finset String) ∪ {Y} = {X, Y} := by
    ext z; simp [Finset.mem_union, Finset.mem_insert, or_comm]
  have hXc : supportCount ts {X} = ts.length :=
    supportCount_eq_length ts {X} (by
      intro t ht a ha
      rw [Finset.mem_singleton] at ha
      subst ha
      exact (hco t ht).1)
  have hXYc : supportCount ts {X, Y} = ts.length :=
    supportCount_eq_length ts {X, Y} (by
      intro t ht a ha
      rcases Finset.mem_insert.mp ha with rfl | ha
      · exact (hco t ht).1
      · rw [Finset.mem_singleton] at ha
        subst ha
        exact (hco t ht).2)
  have hsX : fpSupport ts {X} = 1 := by
    unfold fpSupport
    rw [hXc]
    exact div_self hNq.ne'
  have hsXY : fpSupport ts {X, Y} = 1 := by
    unfold fpSupport
    rw [hXYc]
    exact div_self hNq.ne'
  obtain ⟨t0, ht0⟩ := List.exists_mem_of_ne_nil ts hts
  have hXu : X ∈ itemUniverse ts := mem_itemUniverse.mpr ⟨t0, ht0, (hco t0 ht0).1⟩
  have hYu : Y ∈ itemUniverse ts := mem_itemUniverse.mpr ⟨t0, ht0, (hco t0 ht0).2⟩
  refine ⟨_, Finset.mem_image.mpr ⟨({X}, {Y}), Finset.mem_filter.mpr
    ⟨Finset.mem_product.mpr ⟨?_, ?_⟩, ?_, ?_, ?_, ?_, ?_⟩, rfl⟩, rfl, rfl, ?_, ?_⟩
  · exact Finset.mem_powerset.mpr (Finset.singleton_subset_iff.mpr hXu)
  · exact Finset.mem_powerset.mpr (Finset.singleton_subset_iff.mpr hYu)
  · exact Finset.singleton_nonempty X
  · exact Finset.singleton_nonempty Y
  · exact Finset.disjoint_singleton.mpr hXY
  · rw [hU, hXYc]
    calc ms * (ts.length : ℚ) ≤ 1 * (ts.length : ℚ) :=
          mul_le_mul_of_nonneg_right hms hNq.le
      _ = (ts.length : ℚ) := one_mul _
  · rw [hU, hsXY, hsX]
    norm_num
    exact hmc
  · rw [hU, hsXY]
  · rw [hU, hsXY, hsX]
    norm_num

/-- Witness for C2 at a concrete input: two transactions that each contain
exactly the items x and y. -/
theorem perfect_pair_rule_witness :
    ∃ r ∈ FPGrowthMiner.generate_rules [["x", "y"], ["x", "y"]] 1 1,
      r.antecedents = {"x"} ∧ r.consequents = {"y"} ∧ r.support = 1 ∧ r.confidence = 1 :=
  perfect_pair_rule [["x", "y"], ["x", "y"]] "x" "y" 1 1 (by decide) (by decide)
    (by decide) (by decide) le_rfl le_rfl


/-! ## Transaction rows and the treatment simulator
(src/app/causal/treatment_simulator.py) -/

/-- One row of the transaction DataFrame: one (transaction, item) pair.  The
five context columns are modelled as present, with NaN as `none` (an absent
column behaves like an all-`none` column for every embedded operation). -/
structure TxRow where
  transaction_id : String
  item_id : String
  price : ℚ
  margin_pct : ℚ
  store_id : Option String := none
  context_time_bin : Option String := none
  context_weekday_weekend : Option String := none
  context_quarter : Option Int := none
  context_festival : Option String := none
deriving DecidableEq

/-- Row shorthand for concrete examples. -/
def mkRow (tid item : String) : TxRow := ⟨tid, item, 0, 0, none, none, none, none, none⟩

/-- One row of the per-transaction feature tables built by
`TreatmentSimulator._extract_features`: features plus the binary outcome. -/
structure FeatureRow where
  basket_size : ℚ
  avg_price : ℚ
  has_discount : ℚ
  hour : ℚ
  outcome : Bool
deriving DecidableEq

/-- Embeds `TreatmentSimulator._find_transactions_with_items`: the rows of
every transaction whose id occurs in some row carrying one of `items`
(`unique()` becomes `dedup`; `isin` becomes membership; the Python caller
passes `list(rule.antecedent)`, of which only membership is used, so the item
collection is kept as the set). -/
def TreatmentSimulator.find_transactions_with_items
    (ts : List TxRow) (items : Finset String) : List TxRow :=
  let matching := ((ts.filter fun r => decide (r.item_id ∈ items)).map
    (fun r => r.transaction_id)).dedup
  ts.filter fun r => decide (r.transaction_id ∈ matching)

/-- The antecedent guard of `TreatmentSimulator.simulate_experiment`
(lines 47-57): when the antecedent-positive sub-frame has fewer than 10 rows
the method returns two empty feature tables; `none` means execution continues
into the randomized 70/30 split (whose seeded shuffle, and the later < 3
guards, are not decided by the claims below). -/
def TreatmentSimulator.simulate_experiment_guard (ts : List TxRow) (rule : CRule) :
    Option (List FeatureRow × List FeatureRow) :=
  if (TreatmentSimulator.find_transactions_with_items ts rule.antecedent).length < 10
  then some ([], []) else none

/-- Number of DISTINCT transactions containing at least one of `items`. -/
def distinctPositiveTids (ts : List TxRow) (items : Finset String) : ℕ :=
  ((ts.filter fun r => decide (r.item_id ∈ items)).map
    (fun r => r.transaction_id)).dedup.length

/-- C3 counterexample: five transactions of two rows each, every row matching
the antecedent.  Only 5 distinct transactions contain an antecedent item
(fewer than 10), yet the guard does NOT abort, because it counts the 10 rows
of the exploded sub-frame, not distinct transactions. -/
theorem guard_not_on_distinct_transactions :
    TreatmentSimulator.simulate_experiment_guard
      [mkRow "t1" "a", mkRow "t1" "b", mkRow "t2" "a", mkRow "t2" "b",
       mkRow "t3" "a", mkRow "t3" "b", mkRow "t4" "a", mkRow "t4" "b",
       mkRow "t5" "a", mkRow "t5" "b"]
      ⟨{"a"}, {"c"}, 1, 1, 1, Context.overall, none, none, none⟩ = none ∧
    distinctPositiveTids
      [mkRow "t1" "a", mkRow "t1" "b", mkRow "t2" "a", mkRow "t2" "b",
       mkRow "t3" "a", mkRow "t3" "b", mkRow "t4" "a", mkRow "t4" "b",
       mkRow "t5" "a", mkRow "t5" "b"] {"a"} = 5 := by
  constructor
  · decide
  · decide

/-- C3 (amended): `simulate_experiment` aborts at its antecedent guard and
returns two empty feature tables exactly when the antecedent-positive
sub-frame has fewer than 10 ROWS — rows of the exploded
(transaction, item) frame belonging to a transaction that contains at least
one antecedent item — not fewer than 10 distinct transactions. -/
theorem guard_counts_rows (ts : List TxRow) (rule : CRule) :
    TreatmentSimulator.simulate_experiment_guard ts rule = some ([], []) ↔
      (ts.countP fun r => decide (∃ r2 ∈ ts,
        r2.transaction_id = r.transaction_id ∧
        r2.item_id ∈ rule.antecedent)) < 10 := by
  have hlen : (TreatmentSimulator.find_transactions_with_items ts
      rule.antecedent).length =
      ts.countP (fun r => decide (∃ r2 ∈ ts,
        r2.transaction_id = r.transaction_id ∧
        r2.item_id ∈ rule.antecedent)) := by
    unfold TreatmentSimulator.find_transactions_with_items
    rw [← List.countP_eq_length_filter]
    apply List.countP_congr
    intro r _
    simp only [decide_eq_true_eq]
    simp only [List.mem_dedup, List.mem_map, List.mem_filter, decide_eq_true_eq]
    constructor
    · rintro ⟨r2, ⟨hr2, hitem⟩, htid⟩
      exact ⟨r2, hr2, htid, hitem⟩
    · rintro ⟨r2, hr2, htid, hitem⟩
      exact ⟨r2, ⟨hr2, hitem⟩, htid⟩
  unfold TreatmentSimulator.simulate_experiment_guard
  rw [hlen]
  by_cases h : (ts.countP fun r => decide (∃ r2 ∈ ts,
      r2.transaction_id = r.transaction_id ∧
      r2.item_id ∈ rule.antecedent)) < 10
  · simp [h]
  · simp [h]

/-! ## Causal uplift estimation (src/app/causal/causal_estimator.py) -/

/-- Embeds the `UpliftResult` dataclass. -/
structure UpliftResult where
  incremental_attach_rate : ℚ
  incremental_revenue : ℚ
  incremental_margin : ℚ
  control_rate : ℚ
  treatment_rate : ℚ
  confidence_interval : Option (ℚ × ℚ) := none
  sample_size : ℕ := 0
deriving DecidableEq

/-- Mean of a list of rationals (`Series.mean`); `0` on the empty list. -/
def meanQ (l : List ℚ) : ℚ := l.sum / (l.length : ℚ)

/-- Mean of the binary `outcome` column of a feature table (`y.mean()`). -/
def meanOutcome (l : List FeatureRow) : ℚ :=
  ((l.countP fun r => r.outcome) : ℚ) / (l.length : ℚ)

/-- `consequent_data = transactions[transactions['item_id'].isin(consequent_items)]`. -/
def consequentData (rule : CRule) (ts : List TxRow) : List TxRow :=
  ts.filter fun r => decide (r.item_id ∈ rule.consequent)

/-- `avg_price`: 0.0 when no transaction row carries a consequent item,
otherwise the mean price over those rows. -/
def consequentAvgPrice (rule : CRule) (ts : List TxRow) : ℚ :=
  if consequentData rule ts = [] then 0
  else meanQ ((consequentData rule ts).map (·.price))

/-- `avg_margin_pct`: the 0.25 default when no transaction row carries a
consequent item, otherwise the mean of `margin_pct` over those rows (the
column is modelled as present; its absence would also give 0.25). -/
def consequentAvgMargin (rule : CRule) (ts : List TxRow) : ℚ :=
  if consequentData rule ts = [] then 1/4
  else meanQ ((consequentData rule ts).map (·.margin_pct))

/-- Embeds the body of `CausalEstimator.estimate_uplift` (lines 55-121) given
the simulated group tables.  `ciFn` stands for
`_calculate_confidence_interval`, whose value depends only on the two outcome
vectors (through a seeded RNG); no claim below depends on its value.  The
`TLearner.fit` call has no effect on the returned result (its failures land in
the `except` clause, `CausalEstimator.estimate_uplift_catch`). -/
def CausalEstimator.estimate_uplift_core (minLift : ℚ)
    (ciFn : List Bool → List Bool → ℚ × ℚ) (rule : CRule)
    (transactions : List TxRow) (control treatment : List FeatureRow) : UpliftResult :=
  if control.length < 3 ∨ treatment.length < 3 then
    ⟨0, 0, 0, 0, 0, none, control.length + treatment.length⟩
  else if meanOutcome treatment - meanOutcome control < minLift then
    ⟨0, 0, 0, meanOutcome control, meanOutcome treatment, none,
     control.length + treatment.length⟩
  else
    ⟨meanOutcome treatment - meanOutcome control,
     (meanOutcome treatment - meanOutcome control) * consequentAvgPrice rule transactions,
     (meanOutcome treatment - meanOutcome control) * consequentAvgPrice rule transactions *
       consequentAvgMargin rule transactions,
     meanOutcome control, meanOutcome treatment,
     some (ciFn (control.map (·.outcome)) (treatment.map (·.outcome))),
     control.length + treatment.length⟩

/-- The `try/except` wrapper of `CausalEstimator.estimate_uplift`
(lines 53, 123-125): any exception inside the pipeline becomes the fully
zeroed result with `sample_size = 0`. -/
def CausalEstimator.estimate_uplift_catch (pipeline : Except String UpliftResult) :
    UpliftResult :=
  match pipeline with
  | Except.ok r => r
  | Except.error _ => ⟨0, 0, 0, 0, 0, none, 0⟩

/-- A stand-in confidence-interval function for concrete examples. -/
def zeroCI : List Bool → List Bool → ℚ × ℚ := fun _ _ => (0, 0)

/-- Feature-row shorthand for concrete examples. -/
def fRow (b : Bool) : FeatureRow := ⟨1, 1, 0, 12, b⟩

/-- C4 (amended): with both simulated groups of size ≥ 3 and the incremental
attach rate strictly below `min_incremental_lift`, the three incremental
fields are zeroed while control_rate, treatment_rate and sample_size carry the
computed values.  (The claim's "min_incremental_lift = 1.0 is unreachable"
particular holds only when treatment_rate − control_rate < 1; at
treatment_rate = 1, control_rate = 0 the threshold is reached and the
incremental fields are populated — see the counterexample.) -/
theorem below_threshold_zeroes (minLift : ℚ) (ciFn : List Bool → List Bool → ℚ × ℚ)
    (rule : CRule) (ts : List TxRow) (control treatment : List FeatureRow)
    (hc : 3 ≤ control.length) (ht : 3 ≤ treatment.length)
    (hlt : meanOutcome treatment - meanOutcome control < minLift) :
    CausalEstimator.estimate_uplift_core minLift ciFn rule ts control treatment =
      ⟨0, 0, 0, meanOutcome control, meanOutcome treatment, none,
       control.length + treatment.length⟩ := by
  unfold CausalEstimator.estimate_uplift_core
  rw [if_neg (by omega), if_pos hlt]

/-- Witness for the amended C4 theorem: group rates 0 and 1/3 differ, the lift
1/3 is below the threshold 1, and the three incremental fields come back 0. -/
theorem below_threshold_zeroes_witness :
    3 ≤ ([fRow false, fRow false, fRow false] : List FeatureRow).length ∧
    3 ≤ ([fRow true, fRow false, fRow false] : List FeatureRow).length ∧
    meanOutcome [fRow true, fRow false, fRow false] -
      meanOutcome [fRow false, fRow false, fRow false] < 1 ∧
    CausalEstimator.estimate_uplift_core 1 zeroCI
      ⟨{"a"}, {"b"}, 1, 1, 1, Context.overall, none, none, none⟩ []
      [fRow false, fRow false, fRow false] [fRow true, fRow false, fRow false] =
      ⟨0, 0, 0, meanOutcome [fRow false, fRow false, fRow false],
       meanOutcome [fRow true, fRow false, fRow false], none, 6⟩ := by
  have hlt : meanOutcome [fRow true, fRow false, fRow false] -
      meanOutcome [fRow false, fRow false, fRow false] < 1 := by
    norm_num [meanOutcome, fRow]
  exact ⟨by decide, by decide, hlt,
    below_threshold_zeroes 1 zeroCI
      ⟨{"a"}, {"b"}, 1, 1, 1, Context.overall, none, none, none⟩ []
      [fRow false, fRow false, fRow false] [fRow true, fRow false, fRow false]
      (by decide) (by decide) hlt⟩

/-- C4 counterexample: with `min_incremental_lift = 1.0`, control rate 0 and
treatment rate 1 (rates that differ), the threshold IS reached
(1 − 0 = 1 ≮ 1) and the three incremental fields come back non-zero — the
threshold is not unreachable. -/
theorem min_lift_one_reachable :
    (CausalEstimator.estimate_uplift_core 1 zeroCI
      ⟨{"a"}, {"b"}, 1, 1, 1, Context.overall, none, none, none⟩
      [⟨"t1", "b", 2, 1/2, none, none, none, none, none⟩]
      [fRow false, fRow false, fRow false]
      [fRow true, fRow true, fRow true]).incremental_attach_rate = 1 ∧
    (CausalEstimator.estimate_uplift_core 1 zeroCI
      ⟨{"a"}, {"b"}, 1, 1, 1, Context.overall, none, none, none⟩
      [⟨"t1", "b", 2, 1/2, none, none, none, none, none⟩]
      [fRow false, fRow false, fRow false]
      [fRow true, fRow true, fRow true]).incremental_revenue = 2 ∧
    (CausalEstimator.estimate_uplift_core 1 zeroCI
      ⟨{"a"}, {"b"}, 1, 1, 1, Context.overall, none, none, none⟩
      [⟨"t1", "b", 2, 1/2, none, none, none, none, none⟩]
      [fRow false, fRow false, fRow false]
      [fRow true, fRow true, fRow true]).incremental_margin = 1 ∧
    (CausalEstimator.estimate_uplift_core 1 zeroCI
      ⟨{"a"}, {"b"}, 1, 1, 1, Context.overall, none, none, none⟩
      [⟨"t1", "b", 2, 1/2, none, none, none, none, none⟩]
      [fRow false, fRow false, fRow false]
      [fRow true, fRow true, fRow true]).control_rate = 0 ∧
    (CausalEstimator.estimate_uplift_core 1 zeroCI
      ⟨{"a"}, {"b"}, 1, 1, 1, Context.overall, none, none, none⟩
      [⟨"t1", "b", 2, 1/2, none, none, none, none, none⟩]
      [fRow false, fRow false, fRow false]
      [fRow true, fRow true, fRow true]).treatment_rate = 1 := by
  have hrates : meanOutcome [fRow true, fRow true, fRow true] = 1 ∧
      meanOutcome [fRow false, fRow false, fRow false] = 0 := by
    constructor <;> norm_num [meanOutcome, fRow]
  unfold CausalEstimator.estimate_uplift_core
  rw [if_neg (by decide), if_neg (by rw [hrates.1, hrates.2]; norm_num)]
  simp only [hrates.1, hrates.2]
  norm_num [consequentAvgPrice, consequentAvgMargin, consequentData, meanQ]

/-- C5: `estimate_uplift` never raises — the `except` clause converts any
in-pipeline exception into the fully zeroed result with sample_size 0, and on
an empty transaction frame the simulator's antecedent guard yields two empty
tables and the estimator's < 3 guard returns sample_size 0 with every
rate/metric field 0.0. -/
theorem estimator_never_raises (rule : CRule) (minLift : ℚ)
    (ciFn : List Bool → List Bool → ℚ × ℚ) :
    (∀ msg : String, CausalEstimator.estimate_uplift_catch (Except.error msg) =
      ⟨0, 0, 0, 0, 0, none, 0⟩) ∧
    TreatmentSimulator.simulate_experiment_guard [] rule = some ([], []) ∧
    CausalEstimator.estimate_uplift_core minLift ciFn rule [] [] [] =
      ⟨0, 0, 0, 0, 0, none, 0⟩ := by
  refine ⟨fun _ => rfl, rfl, ?_⟩
  unfold CausalEstimator.estimate_uplift_core
  rw [if_pos (by simp)]
  rfl

/-- C10: when no transaction row's item lies in the rule's consequent,
`avg_price` defaults to 0.0, so `incremental_revenue` and
`incremental_margin` are 0.0 even though the lift cleared the threshold, while
the attach rate, both group rates, the bootstrap confidence interval and the
sample size are all populated from the group statistics. -/
theorem no_consequent_rows_zero_revenue (minLift : ℚ)
    (ciFn : List Bool → List Bool → ℚ × ℚ) (rule : CRule) (ts : List TxRow)
    (control treatment : List FeatureRow)
    (hc : 3 ≤ control.length) (ht : 3 ≤ treatment.length)
    (hge : ¬ meanOutcome treatment - meanOutcome control < minLift)
    (hnone : ∀ r ∈ ts, r.item_id ∉ rule.consequent) :
    CausalEstimator.estimate_uplift_core minLift ciFn rule ts control treatment =
      ⟨meanOutcome treatment - meanOutcome control, 0, 0,
       meanOutcome control, meanOutcome treatment,
       some (ciFn (control.map (·.outcome)) (treatment.map (·.outcome))),
       control.length + treatment.length⟩ := by
  have hempty : consequentData rule ts = [] := by
    apply List.filter_eq_nil_iff.mpr
    intro r hr
    simpa using hnone r hr
  unfold CausalEstimator.estimate_uplift_core
  rw [if_neg (by omega), if_neg hge]
  simp [consequentAvgPrice, hempty]

/-- Witness for C10: lift 1 clears the threshold 0, yet with no consequent
rows in the frame both revenue fields are 0 while the rates, interval and
sample size are populated. -/
theorem no_consequent_rows_zero_revenue_witness :
    3 ≤ ([fRow false, fRow false, fRow false] : List FeatureRow).length ∧
    3 ≤ ([fRow true, fRow true, fRow true] : List FeatureRow).length ∧
    ¬ meanOutcome [fRow true, fRow true, fRow true] -
        meanOutcome [fRow false, fRow false, fRow false] < 0 ∧
    CausalEstimator.estimate_uplift_core 0 zeroCI
      ⟨{"a"}, {"b"}, 1, 1, 1, Context.overall, none, none, none⟩ []
      [fRow false, fRow false, fRow false] [fRow true, fRow true, fRow true] =
      ⟨meanOutcome [fRow true, fRow true, fRow true] -
         meanOutcome [fRow false, fRow false, fRow false], 0, 0,
       meanOutcome [fRow false, fRow false, fRow false],
       meanOutcome [fRow true, fRow true, fRow true],
       some (zeroCI [false, false, false] [true, true, true]), 6⟩ := by
  have hge : ¬ meanOutcome [fRow true, fRow true, fRow true] -
      meanOutcome [fRow false, fRow false, fRow false] < 0 := by
    norm_num [meanOutcome, fRow]
  exact ⟨by decide, by decide, hge,
    no_consequent_rows_zero_revenue 0 zeroCI
      ⟨{"a"}, {"b"}, 1, 1, 1, Context.overall, none, none, none⟩ []
      [fRow false, fRow false, fRow false] [fRow true, fRow true, fRow true]
      (by decide) (by decide) hge (by simp)⟩

/-! ## Scoring (src/app/score/profit_calculator.py, diversity_scorer.py,
multi_objective.py) -/

/-- Embeds `ProfitCalculator.calculate_rule_profit`: mean price of the rows
carrying a consequent item × their mean margin × the rule's confidence; 0.0
when no row matches. -/
def ProfitCalculator.calculate_rule_profit (rule : CRule) (ts : List TxRow) : ℚ :=
  if consequentData rule ts = [] then 0
  else meanQ ((consequentData rule ts).map (·.price)) *
    meanQ ((consequentData rule ts).map (·.margin_pct)) * rule.confidence

/-- `antecedent ∪ consequent`, the item set of a rule. -/
def ruleItems (r : CRule) : Finset String := r.antecedent ∪ r.consequent

/-- Embeds `DiversityScorer.calculate_diversity`: restrict to rules of the
same context (dataclass equality of `Context`); 1.0 when at most one remains;
otherwise 1 − mean over the rule's items of
(# same-context rules containing the item / # same-context rules),
clamped to [0, 1].  The frozenset iteration order becomes a sorted list;
every aggregate below is order-independent. -/
def DiversityScorer.sameContext (rule : CRule) (context_rules : List CRule) :
    List CRule :=
  context_rules.filter fun r => decide (r.context = rule.context)

/-- The `frequencies` local of `calculate_diversity`: per item of the rule,
(# same-context rules containing it) / (# same-context rules). -/
def DiversityScorer.freqs (rule : CRule) (context_rules : List CRule) : List ℚ :=
  ((ruleItems rule).sort (· ≤ ·)).map fun it =>
    ((DiversityScorer.sameContext rule context_rules).countP
      (fun r => decide (it ∈ ruleItems r)) : ℚ) /
    ((DiversityScorer.sameContext rule context_rules).length : ℚ)

def DiversityScorer.calculate_diversity (rule : CRule) (context_rules : List CRule) : ℚ :=
  if (DiversityScorer.sameContext rule context_rules).length ≤ 1 then 1
  else if DiversityScorer.freqs rule context_rules = [] then 1
  else max 0 (min 1 (1 - (DiversityScorer.freqs rule context_rules).sum /
    ((DiversityScorer.freqs rule context_rules).length : ℚ)))

/-- Minimum of a non-empty list as Python `min` computes it (0 on `[]`,
which the scorer never hits). -/
def listMin : List ℚ → ℚ
  | [] => 0
  | x :: xs => xs.foldl min x

/-- Maximum of a non-empty list as Python `max` computes it. -/
def listMax : List ℚ → ℚ
  | [] => 0
  | x :: xs => xs.foldl max x

/-- Embeds the min-max normalization of `MultiObjectiveScorer.score_rules`
(lines 79-90): the range defaults to 1.0 when max = min. -/
def minmaxNorm (vals : List ℚ) (v : ℚ) : ℚ :=
  (v - listMin vals) /
    (if listMax vals = listMin vals then 1 else listMax vals - listMin vals)

/-- The context group of `score_rules` (lines 50-57): rules are grouped by the
STRING rendering of their context (`ctx_key = str(ctx)`). -/
def MultiObjectiveScorer.contextGroup (rules : List CRule) (r : CRule) : List CRule :=
  rules.filter fun x => decide (Context.render x.context = Context.render r.context)

/-- `norm_lift` of a rule within its context group. -/
def MultiObjectiveScorer.normLiftIn (rules : List CRule) (r : CRule) : ℚ :=
  minmaxNorm ((MultiObjectiveScorer.contextGroup rules r).map (·.lift)) r.lift

/-- `norm_profit` of a rule within its context group (profit scores computed
by `ProfitCalculator.calculate_rule_profit` over the same transactions). -/
def MultiObjectiveScorer.normProfitIn (rules : List CRule) (ts : List TxRow)
    (r : CRule) : ℚ :=
  minmaxNorm ((MultiObjectiveScorer.contextGroup rules r).map
    (fun x => ProfitCalculator.calculate_rule_profit x ts))
    (ProfitCalculator.calculate_rule_profit r ts)

/-- The scoring weights (`lift`, `profit_margin`, `diversity`, `confidence`). -/
structure Weights where
  lift : ℚ
  profit_margin : ℚ
  diversity : ℚ
  confidence : ℚ

/-- `overall_score` of one rule as `MultiObjectiveScorer.score_rules` computes
it (lines 93-98). -/
def MultiObjectiveScorer.overall_score (w : Weights) (rules : List CRule)
    (ts : List TxRow) (r : CRule) : ℚ :=
  w.lift * MultiObjectiveScorer.normLiftIn rules r +
  w.profit_margin * MultiObjectiveScorer.normProfitIn rules ts r +
  w.diversity * DiversityScorer.calculate_diversity r
    (MultiObjectiveScorer.contextGroup rules r) +
  w.confidence * r.confidence

lemma foldl_min_le (l : List ℚ) (a : ℚ) :
    l.foldl min a ≤ a ∧ ∀ x ∈ l, l.foldl min a ≤ x := by
  induction l generalizing a with
  | nil => exact ⟨le_refl a, by simp⟩
  | cons b l ih =>
    refine ⟨((ih (min a b)).1).trans (min_le_left a b), ?_⟩
    intro x hx
    rcases List.mem_cons.mp hx with rfl | hx
    · exact ((ih (min a x)).1).trans (min_le_right a x)
    · exact (ih (min a b)).2 x hx

lemma foldl_min_mem (l : List ℚ) (a : ℚ) :
    l.foldl min a = a ∨ l.foldl min a ∈ l := by
  induction l generalizing a with
  | nil => exact Or.inl rfl
  | cons b l ih =>
    rcases ih (min a b) with h | h
    · rcases min_choice a b with hm | hm
      · exact Or.inl (by rw [List.foldl_cons, h, hm])
      · exact Or.inr (by rw [List.foldl_cons, h, hm]; exact List.mem_cons_self b l)
    · exact Or.inr (List.mem_cons_of_mem b h)

lemma foldl_max_le (l : List ℚ) (a : ℚ) :
    a ≤ l.foldl max a ∧ ∀ x ∈ l, x ≤ l.foldl max a := by
  induction l generalizing a with
  | nil => exact ⟨le_refl a, by simp⟩
  | cons b l ih =>
    refine ⟨(le_max_left a b).trans ((ih (max a b)).1), ?_⟩
    intro x hx
    rcases List.mem_cons.mp hx with rfl | hx
    · exact (le_max_right a x).trans ((ih (max a x)).1)
    · exact (ih (max a b)).2 x hx

lemma foldl_max_mem (l : List ℚ) (a : ℚ) :
    l.foldl max a = a ∨ l.foldl max a ∈ l := by
  induction l generalizing a with
  | nil => exact Or.inl rfl
  | cons b l ih =>
    rcases ih (max a b) with h | h
    · rcases max_choice a b with hm | hm
      · exact Or.inl (by rw [List.foldl_cons, h, hm])
      · exact Or.inr (by rw [List.foldl_cons, h, hm]; exact List.mem_cons_self b l)
    · exact Or.inr (List.mem_cons_of_mem b h)

lemma listMin_le {l : List ℚ} {x : ℚ} (hx : x ∈ l) : listMin l ≤ x := by
  cases l with
  | nil => cases hx
  | cons a l =>
    show l.foldl min a ≤ x
    rcases List.mem_cons.mp hx with rfl | hx
    · exact (foldl_min_le l x).1
    · exact (foldl_min_le l a).2 x hx

lemma listMin_mem {l : List ℚ} (h : l ≠ []) : listMin l ∈ l := by
  cases l with
  | nil => exact absurd rfl h
  | cons a l =>
    show l.foldl min a ∈ a :: l
    rcases foldl_min_mem l a with h1 | h1
    · rw [h1]; exact List.mem_cons_self a l
    · exact List.mem_cons_of_mem a h1

lemma le_listMax {l : List ℚ} {x : ℚ} (hx : x ∈ l) : x ≤ listMax l := by
  cases l with
  | nil => cases hx
  | cons a l =>
    show x ≤ l.foldl max a
    rcases List.mem_cons.mp hx with rfl | hx
    · exact (foldl_max_le l x).1
    · exact (foldl_max_le l a).2 x hx

lemma listMax_mem {l : List ℚ} (h : l ≠ []) : listMax l ∈ l := by
  cases l with
  | nil => exact absurd rfl h
  | cons a l =>
    show l.foldl max a ∈ a :: l
    rcases foldl_max_mem l a with h1 | h1
    · rw [h1]; exact List.mem_cons_self a l
    · exact List.mem_cons_of_mem a h1

lemma minmaxNorm_extremes (g : List CRule) (f : CRule → ℚ) (rmax rmin : CRule)
    (hmax_mem : rmax ∈ g) (hmin_mem : rmin ∈ g)
    (hmax : ∀ x ∈ g, f x ≤ f rmax) (hmin : ∀ x ∈ g, f rmin ≤ f x)
    (hne : f rmin ≠ f rmax) :
    minmaxNorm (g.map f) (f rmax) = 1 ∧ minmaxNorm (g.map f) (f rmin) = 0 := by
  have hmapne : g.map f ≠ [] := by
    intro h
    rw [List.map_eq_nil_iff] at h
    exact absurd (h ▸ hmax_mem) (List.not_mem_nil rmax)
  have hmaxL : listMax (g.map f) = f rmax := by
    apply le_antisymm
    · obtain ⟨x, hx, hfx⟩ := List.mem_map.mp (listMax_mem hmapne)
      rw [← hfx]
      exact hmax x hx
    · exact le_listMax (List.mem_map.mpr ⟨rmax, hmax_mem, rfl⟩)
  have hminL : listMin (g.map f) = f rmin := by
    apply le_antisymm
    · exact listMin_le (List.mem_map.mpr ⟨rmin, hmin_mem, rfl⟩)
    · obtain ⟨x, hx, hfx⟩ := List.mem_map.mp (listMin_mem hmapne)
      rw [← hfx]
      exact hmin x hx
  have hdiff : f rmax - f rmin ≠ 0 := sub_ne_zero.mpr (Ne.symm hne)
  constructor
  · unfold minmaxNorm
    rw [hmaxL, hminL, if_neg (Ne.symm hne)]
    exact div_self hdiff
  · unfold minmaxNorm
    rw [hminL, sub_self, zero_div]

lemma minmaxNorm_const (g : List CRule) (f : CRule → ℚ) (r : CRule) (hr : r ∈ g)
    (hall : ∀ x ∈ g, ∀ y ∈ g, f x = f y) :
    minmaxNorm (g.map f) (f r) = 0 := by
  have hmapne : g.map f ≠ [] := by
    intro h
    rw [List.map_eq_nil_iff] at h
    exact absurd (h ▸ hr) (List.not_mem_nil r)
  obtain ⟨x, hx, hfx⟩ := List.mem_map.mp (listMin_mem hmapne)
  unfold minmaxNorm
  rw [← hfx, hall r hr x hx, sub_self, zero_div]

lemma mem_contextGroup_self {rules : List CRule} {r : CRule} (hr : r ∈ rules) :
    r ∈ MultiObjectiveScorer.contextGroup rules r := by
  unfold MultiObjectiveScorer.contextGroup
  rw [List.mem_filter]
  exact ⟨hr, by simp⟩

lemma contextGroup_eq_of_mem {rules : List CRule} {x r : CRule}
    (h : x ∈ MultiObjectiveScorer.contextGroup rules r) :
    MultiObjectiveScorer.contextGroup rules x = MultiObjectiveScorer.contextGroup rules r := by
  have hrender : Context.render x.context = Context.render r.context := by
    have := (List.mem_filter.mp h).2
    simpa using this
  unfold MultiObjectiveScorer.contextGroup
  apply List.filter_congr
  intro y _
  rw [hrender]

/-- C6: normalization in `score_rules` is per context group (rules grouped by
the rendered context string).  In a group whose lift values are not all equal
the maximum-lift rule normalizes to 1 and the minimum-lift rule to 0,
regardless of rules outside the group; when all lift (resp. profit) values in
a group coincide the range defaults to 1.0 and every rule's normalized value
is 0 — never a division by zero. -/
theorem scorer_normalizes_per_context_group :
    (∀ (rules : List CRule) (rmax rmin : CRule),
      rmax ∈ rules →
      rmin ∈ MultiObjectiveScorer.contextGroup rules rmax →
      (∀ x ∈ MultiObjectiveScorer.contextGroup rules rmax, x.lift ≤ rmax.lift) →
      (∀ x ∈ MultiObjectiveScorer.contextGroup rules rmax, rmin.lift ≤ x.lift) →
      rmin.lift ≠ rmax.lift →
      MultiObjectiveScorer.normLiftIn rules rmax = 1 ∧
      MultiObjectiveScorer.normLiftIn rules rmin = 0) ∧
    (∀ (rules : List CRule) (r : CRule), r ∈ rules →
      (∀ x ∈ MultiObjectiveScorer.contextGroup rules r,
        ∀ y ∈ MultiObjectiveScorer.contextGroup rules r, x.lift = y.lift) →
      MultiObjectiveScorer.normLiftIn rules r = 0) ∧
    (∀ (rules : List CRule) (ts : List TxRow) (r : CRule), r ∈ rules →
      (∀ x ∈ MultiObjectiveScorer.contextGroup rules r,
        ∀ y ∈ MultiObjectiveScorer.contextGroup rules r,
        ProfitCalculator.calculate_rule_profit x ts =
          ProfitCalculator.calculate_rule_profit y ts) →
      MultiObjectiveScorer.normProfitIn rules ts r = 0) := by
  refine ⟨?_, ?_, ?_⟩
  · intro rules rmax rmin hmax_rules hmin_g hmax hmin hne
    have hmax_g := mem_contextGroup_self hmax_rules
    have hext := minmaxNorm_extremes (MultiObjectiveScorer.contextGroup rules rmax)
      (·.lift) rmax rmin hmax_g hmin_g hmax hmin hne
    refine ⟨hext.1, ?_⟩
    unfold MultiObjectiveScorer.normLiftIn
    rw [contextGroup_eq_of_mem hmin_g]
    exact hext.2
  · intro rules r hr hall
    exact minmaxNorm_const _ (·.lift) r (mem_contextGroup_self hr) hall
  · intro rules ts r hr hall
    exact minmaxNorm_const _ (fun x => ProfitCalculator.calculate_rule_profit x ts) r
      (mem_contextGroup_self hr) hall

/-- Concrete rules for the C6 witness. -/
def c6rA : CRule := ⟨{"a"}, {"b"}, 1, 1, 5, Context.overall, none, none, none⟩

def c6rB : CRule := ⟨{"c"}, {"d"}, 1, 1, 2, Context.overall, none, none, none⟩

/-- Witness for C6 at concrete inputs: lifts 5 and 2 in one group normalize to
1 and 0; a single-rule group normalizes to 0 on both terms. -/
theorem scorer_normalizes_witness :
    MultiObjectiveScorer.normLiftIn [c6rA, c6rB] c6rA = 1 ∧
    MultiObjectiveScorer.normLiftIn [c6rA, c6rB] c6rB = 0 ∧
    MultiObjectiveScorer.normLiftIn [c6rA] c6rA = 0 ∧
    MultiObjectiveScorer.normProfitIn [c6rA] [] c6rA = 0 :=
  ⟨(scorer_normalizes_per_context_group.1 [c6rA, c6rB] c6rA c6rB (by decide)
      (by decide) (by decide) (by decide) (by decide)).1,
   (scorer_normalizes_per_context_group.1 [c6rA, c6rB] c6rA c6rB (by decide)
      (by decide) (by decide) (by decide) (by decide)).2,
   scorer_normalizes_per_context_group.2.1 [c6rA] c6rA (by decide) (by decide),
   scorer_normalizes_per_context_group.2.2 [c6rA] [] c6rA (by decide) (by decide)⟩

lemma sort_map_sum (s : Finset String) (f : String → ℚ) :
    ((s.sort (· ≤ ·)).map f).sum = ∑ x ∈ s, f x := by
  have hperm : List.Perm ((s.sort (· ≤ ·)).map f) (s.toList.map f) :=
    (Finset.sort_perm_toList (· ≤ ·) s).map f
  rw [hperm.sum_eq]
  exact Finset.sum_to_list s f

/-- C7: diversity only looks at rules sharing the scored rule's context: with
at most one same-context rule the score is exactly 1.0 (so two rules with the
same antecedent/consequent but different contexts each score 1.0); otherwise
it equals 1 minus the mean item frequency over same-context rules, clamped to
[0, 1]. -/
theorem diversity_same_context_only :
    (∀ (rule : CRule) (crs : List CRule),
      (DiversityScorer.sameContext rule crs).length ≤ 1 →
      DiversityScorer.calculate_diversity rule crs = 1) ∧
    (∀ (rule : CRule) (crs : List CRule),
      1 < (DiversityScorer.sameContext rule crs).length →
      DiversityScorer.calculate_diversity rule crs =
        max 0 (min 1 (1 - (∑ it ∈ ruleItems rule,
          (((DiversityScorer.sameContext rule crs).countP
              fun r => decide (it ∈ ruleItems r)) : ℚ) /
            ((DiversityScorer.sameContext rule crs).length : ℚ)) /
          ((ruleItems rule).card : ℚ)))) ∧
    (∀ r1 r2 : CRule, r1.context ≠ r2.context →
      DiversityScorer.calculate_diversity r1 [r1, r2] = 1 ∧
      DiversityScorer.calculate_diversity r2 [r1, r2] = 1) := by
  refine ⟨?_, ?_, ?_⟩
  · intro rule crs h
    unfold DiversityScorer.calculate_diversity
    rw [if_pos h]
  · intro rule crs h
    unfold DiversityScorer.calculate_diversity
    rw [if_neg (by omega)]
    by_cases hf : DiversityScorer.freqs rule crs = []
    · rw [if_pos hf]
      have hs : ruleItems rule = ∅ := by
        unfold DiversityScorer.freqs at hf
        rw [List.map_eq_nil_iff] at hf
        have hl := @Finset.length_sort String (fun x1 x2 => x1 ≤ x2) _ _ _ _ (ruleItems rule)
        rw [hf] at hl
        exact Finset.card_eq_zero.mp hl.symm
      rw [hs]
      simp
    · rw [if_neg hf]
      have hsum : (DiversityScorer.freqs rule crs).sum =
          ∑ it ∈ ruleItems rule,
            (((DiversityScorer.sameContext rule crs).countP
                fun r => decide (it ∈ ruleItems r)) : ℚ) /
              ((DiversityScorer.sameContext rule crs).length : ℚ) := by
        unfold DiversityScorer.freqs
        exact sort_map_sum _ _
      have hlen : ((DiversityScorer.freqs rule crs).length : ℚ) =
          ((ruleItems rule).card : ℚ) := by
        unfold DiversityScorer.freqs
        rw [List.length_map, Finset.length_sort]
      rw [hsum, hlen]
  · intro r1 r2 h
    have h1 : DiversityScorer.sameContext r1 [r1, r2] = [r1] := by
      have h21 : ¬ r2.context = r1.context := fun hh => h hh.symm
      simp [DiversityScorer.sameContext, List.filter, h21]
    have h2 : DiversityScorer.sameContext r2 [r1, r2] = [r2] := by
      simp [DiversityScorer.sameContext, List.filter, h]
    constructor
    · unfold DiversityScorer.calculate_diversity
      rw [h1]
      rfl
    · unfold DiversityScorer.calculate_diversity
      rw [h2]
      rfl

/-- Concrete rules for the C7 witness. -/
def c7r1 : CRule := ⟨{"a"}, {"b"}, 1, 1, 1, Context.overall, none, none, none⟩

def c7r2 : CRule :=
  ⟨{"a"}, {"b"}, 1, 1, 1, ⟨some "s1", none, none, none, none⟩, none, none, none⟩

def c7r3 : CRule := ⟨{"a"}, {"c"}, 1, 1, 1, Context.overall, none, none, none⟩

/-- Witness for C7: a lone rule scores 1.0; two rules with identical
antecedent/consequent but different contexts each score 1.0; with two rules in
one context the clamped mean-frequency formula is returned. -/
theorem diversity_same_context_only_witness :
    DiversityScorer.calculate_diversity c7r1 [c7r1] = 1 ∧
    (DiversityScorer.calculate_diversity c7r1 [c7r1, c7r2] = 1 ∧
      DiversityScorer.calculate_diversity c7r2 [c7r1, c7r2] = 1) ∧
    DiversityScorer.calculate_diversity c7r1 [c7r1, c7r3] =
      max 0 (min 1 (1 - (∑ it ∈ ruleItems c7r1,
        (((DiversityScorer.sameContext c7r1 [c7r1, c7r3]).countP
            fun r => decide (it ∈ ruleItems r)) : ℚ) /
          ((DiversityScorer.sameContext c7r1 [c7r1, c7r3]).length : ℚ)) /
        ((ruleItems c7r1).card : ℚ))) :=
  ⟨diversity_same_context_only.1 c7r1 [c7r1] (by decide),
   diversity_same_context_only.2.2 c7r1 c7r2 (by decide),
   diversity_same_context_only.2.1 c7r1 [c7r1, c7r3] (by decide)⟩

/-! ## Context segmentation (src/app/mining/context_segmenter.py) -/

/-- `column.unique()` restricted to non-NaN values. -/
def optVals {α : Type} [DecidableEq α] (l : List (Option α)) : List α :=
  l.dedup.filterMap id

/-- `context_festival.unique()` restricted to non-NaN, NON-EMPTY values
(`if pd.notna(festival) and festival`). -/
def festVals (ts : List TxRow) : List String :=
  (ts.map (·.context_festival)).dedup.filterMap fun o =>
    match o with
    | some f => if f ≠ "" then some f else none
    | none => none

/-- One family of segments: for each candidate dimension value, the rows
matching it, kept when the row count reaches the family's threshold
(the auto-backoff of `_add_single_dimension_segments` /
`_add_two_dimension_segments`). -/
def dimSegments {α : Type} (ts : List TxRow) (vals : List α)
    (pred : α → TxRow → Bool) (mkCtx : α → Context) (thr : ℕ) :
    List (Context × List TxRow) :=
  vals.filterMap fun v =>
    if thr ≤ (ts.filter (pred v)).length then some (mkCtx v, ts.filter (pred v))
    else none

/-- Embeds `ContextSegmenter.segment`: the Overall segment always first, then
(depth ≥ 1) the five single-dimension families — festival with threshold
`max(min_rows // 2, 20)` — then (depth ≥ 2) the four pairwise families —
festival×time with threshold `max(min_rows // 3, 15)`.  The Python dict never
sees two equal keys (each family sets a distinct combination of fields with
distinct values), so its entries are exactly this list. -/
def ContextSegmenter.segment (min_rows : ℕ) (ts : List TxRow) (max_depth : ℕ) :
    List (Context × List TxRow) :=
  (Context.overall, ts) ::
  ((if 1 ≤ max_depth then
      dimSegments ts (optVals (ts.map (·.store_id)))
        (fun v r => decide (r.store_id = some v))
        (fun v => ⟨some v, none, none, none, none⟩) min_rows ++
      dimSegments ts (optVals (ts.map (·.context_time_bin)))
        (fun v r => decide (r.context_time_bin = some v))
        (fun v => ⟨none, some v, none, none, none⟩) min_rows ++
      dimSegments ts (optVals (ts.map (·.context_weekday_weekend)))
        (fun v r => decide (r.context_weekday_weekend = some v))
        (fun v => ⟨none, none, some v, none, none⟩) min_rows ++
      dimSegments ts (optVals (ts.map (·.context_quarter)))
        (fun v r => decide (r.context_quarter = some v))
        (fun v => ⟨none, none, none, some v, none⟩) min_rows ++
      dimSegments ts (festVals ts)
        (fun v r => decide (r.context_festival = some v))
        (fun v => ⟨none, none, none, none, some v⟩) (max (min_rows / 2) 20)
    else []) ++
   (if 2 ≤ max_depth then
      dimSegments ts ((optVals (ts.map (·.store_id))).flatMap fun s =>
          (optVals (ts.map (·.context_time_bin))).map fun t => (s, t))
        (fun v r => decide (r.store_id = some v.1 ∧ r.context_time_bin = some v.2))
        (fun v => ⟨some v.1, some v.2, none, none, none⟩) min_rows ++
      dimSegments ts ((optVals (ts.map (·.context_weekday_weekend))).flatMap fun w =>
          (optVals (ts.map (·.context_time_bin))).map fun t => (w, t))
        (fun v r => decide (r.context_weekday_weekend = some v.1 ∧
          r.context_time_bin = some v.2))
        (fun v => ⟨none, some v.2, some v.1, none, none⟩) min_rows ++
      dimSegments ts ((festVals ts).flatMap fun f =>
          (optVals (ts.map (·.context_time_bin))).map fun t => (f, t))
        (fun v r => decide (r.context_festival = some v.1 ∧
          r.context_time_bin = some v.2))
        (fun v => ⟨none, some v.2, none, none, some v.1⟩) (max (min_rows / 3) 15) ++
      dimSegments ts ((optVals (ts.map (·.store_id))).flatMap fun s =>
          (optVals (ts.map (·.context_quarter))).map fun q => (s, q))
        (fun v r => decide (r.store_id = some v.1 ∧ r.context_quarter = some v.2))
        (fun v => ⟨some v.1, none, none, some v.2, none⟩) min_rows
    else []))

lemma dimSegments_subset {α : Type} {ts : List TxRow} {vals : List α}
    {pred : α → TxRow → Bool} {mkCtx : α → Context} {thr : ℕ}
    {c : Context} {df : List TxRow}
    (h : (c, df) ∈ dimSegments ts vals pred mkCtx thr) :
    ∀ r ∈ df, r ∈ ts := by
  unfold dimSegments at h
  obtain ⟨v, _, heq⟩ := List.mem_filterMap.mp h
  split at heq
  · rw [Option.some.injEq, Prod.mk.injEq] at heq
    intro r hr
    rw [← heq.2] at hr
    exact (List.mem_filter.mp hr).1
  · cases heq

/-- C9: for every transaction set and `max_depth`, the Overall (all-unset)
context is in the result paired with the FULL transaction set, and every
segment's transaction set is a subset of it — segments are nested under
Overall. -/
theorem segment_overall_superset (min_rows : ℕ) (ts : List TxRow) (max_depth : ℕ) :
    (Context.overall, ts) ∈ ContextSegmenter.segment min_rows ts max_depth ∧
    ∀ c df, (c, df) ∈ ContextSegmenter.segment min_rows ts max_depth →
      ∀ r ∈ df, r ∈ ts := by
  constructor
  · exact List.mem_cons_self _ _
  · intro c df h r hr
    rcases List.mem_cons.mp h with heq | h
    · cases heq
      exact hr
    · rw [List.mem_append] at h
      rcases h with h | h
      · split at h
        · simp only [List.mem_append] at h
          rcases h with (((h | h) | h) | h) | h <;>
            exact dimSegments_subset h r hr
        · cases h
      · split at h
        · simp only [List.mem_append] at h
          rcases h with ((h | h) | h) | h <;>
            exact dimSegments_subset h r hr
        · cases h

/-- Witness for C9 at a concrete input. -/
theorem segment_overall_superset_witness :
    (Context.overall, [mkRow "t" "x"]) ∈ ContextSegmenter.segment 0 [mkRow "t" "x"] 2 ∧
    mkRow "t" "x" ∈ [mkRow "t" "x"] :=
  ⟨(segment_overall_superset 0 [mkRow "t" "x"] 2).1,
   (segment_overall_superset 0 [mkRow "t" "x"] 2).2 Context.overall [mkRow "t" "x"]
     (segment_overall_superset 0 [mkRow "t" "x"] 2).1 (mkRow "t" "x")
     (List.mem_cons_self _ _)⟩
